import Mathlib

/-!
Shallow embedding of the shellcaster terminal UI core (`src/ui/mod.rs`).

Modelling conventions, used consistently below:

* Rust `i64` identifiers become `Int`; `u16` dimensions become `Nat`, with an
  explicit `% 65536` wherever the source arithmetic can overflow a `u16`
  (release-profile wrap-around semantics; a debug build aborts at the same
  inputs).
* A Rust panic (an `expect` on a failed lookup) is modelled by `Option`/outer
  `none`: a function that can panic returns `Option` of its normal result.
* The shared `LockVec` store is read by the UI through two separate views, as
  in the source: `borrow_filtered_order()` (a list of ids in display order)
  and `borrow_map()` (an id-keyed map).  The controller thread mutates the
  store between any two UI reads, so a single model value holds both views;
  a value whose views disagree models the pair of observations the UI makes
  when the store changed between its two reads within one tick.
* The blocking notification prompts are modelled by a scripted list of user
  answers consumed in order plus a log of the prompts issued, so that theorems
  can state which questions were asked and how answers map to results.
* Draw-only operations of the external widgets (redraw, highlight, border
  drawing, the text viewport of the details panel) have no observable state in
  the claims and are omitted from the modelled state.
* Code of this repository that is outside the examined source (`menu.rs`,
  `types.rs`, `config.rs`, `keymap.rs`, the `escaper` crate) is modelled from
  the specification; each such definition carries a doc comment starting with
  `Modelled from the spec:`.
-/

/-! ## Description sanitization pipeline (`RE_BR_TAGS`, `RE_HTML_TAGS`,
`RE_MULT_LINE_BREAKS`, and the pipeline in `update_details_panel`) -/

/-- A line-break character as matched by the `((\r\n)|\r|\n)` alternation of
the three regexes. -/
def isLB (c : Char) : Bool := c = '\r' || c = '\n'

/-- Recognise a `<br>`, `<br/>` or `<br />`-style tag (the `<br */?>` part of
`RE_BR_TAGS`) at the head of the list, returning the remaining input. -/
def parseBrTag : List Char → Option (List Char)
  | '<' :: 'b' :: 'r' :: rest =>
    match rest.dropWhile (· = ' ') with
    | '/' :: '>' :: rest2 => some rest2
    | '>' :: rest2 => some rest2
    | _ => none
  | _ => none

/-- `RE_BR_TAGS.replace_all(s, "\n")`: each `<br>`-style tag together with the
line breaks immediately around it becomes a single `'\n'`.  Scanning is left to
right; a line-break run is replaced only when the tag follows it directly,
matching the leftmost-match semantics of `replace_all`. -/
def brReplace : List Char → List Char
  | [] => []
  | c :: rest =>
    if h : (parseBrTag ((c :: rest).dropWhile isLB)).isSome then
      '\n' :: brReplace (((parseBrTag ((c :: rest).dropWhile isLB)).get h).dropWhile isLB)
    else c :: brReplace rest
termination_by l => l.length
decreasing_by
  · have hs := Option.eq_some_of_isSome h
    have h2 : ((c :: rest).dropWhile isLB).length ≤ (c :: rest).length :=
      (List.dropWhile_sublist _).length_le
    have h3 := (List.dropWhile_sublist
      (l := (parseBrTag ((c :: rest).dropWhile isLB)).get h) isLB).length_le
    have h1 : ((parseBrTag ((c :: rest).dropWhile isLB)).get h).length
        < ((c :: rest).dropWhile isLB).length := by
      obtain ⟨r, hr⟩ := Option.isSome_iff_exists.mp h
      have hgr : (parseBrTag ((c :: rest).dropWhile isLB)).get h = r :=
        Option.some.inj (hs.symm.trans hr)
      rw [hgr]
      rw [parseBrTag.eq_def] at hr
      split at hr
      · rename_i rest0 heq
        have hd : (rest0.dropWhile (· = ' ')).length ≤ rest0.length :=
          (List.dropWhile_sublist _).length_le
        have hlen := congrArg List.length heq
        simp only [List.length_cons] at hlen
        split at hr
        · rename_i rest2 heq2
          have := congrArg List.length heq2
          simp only [List.length_cons] at this
          cases hr
          omega
        · rename_i rest2 heq2
          have := congrArg List.length heq2
          simp only [List.length_cons] at this
          cases hr
          omega
        · cases hr
      · cases hr
    omega
  · simp

/-- `RE_HTML_TAGS.replace_all(s, "")`: every `<[^<>]*>` span is removed.  A
`'<'` with no closing `'>'` before the next `'<'` or the end of input starts no
match and is kept. -/
def stripTags : List Char → List Char
  | [] => []
  | c :: rest =>
    if c = '<' then
      if (rest.dropWhile (fun x => x ≠ '<' && x ≠ '>')).head? = some '>' then
        stripTags (rest.dropWhile (fun x => x ≠ '<' && x ≠ '>')).tail
      else c :: stripTags rest
    else c :: stripTags rest
termination_by l => l.length
decreasing_by
  · have h2 : ((rest.dropWhile (fun x => x ≠ '<' && x ≠ '>'))).length ≤ rest.length :=
      (List.dropWhile_sublist _).length_le
    have h3 := List.length_tail ((rest.dropWhile (fun x => x ≠ '<' && x ≠ '>')))
    simp only [List.length_cons]
    omega
  all_goals simp

/-- Modelled from the spec: the named HTML entities recognised by the external
entity decoder (the `escaper` crate, outside the examined source).  The spec
only requires that entities are decoded and that failures fall back, so the
model decodes the four standard named entities and reports failure on any
other ampersand sequence. -/
def entityChar (name : List Char) : Option Char :=
  if name = ['a', 'm', 'p'] then some '&'
  else if name = ['l', 't'] then some '<'
  else if name = ['g', 't'] then some '>'
  else if name = ['q', 'u', 'o', 't'] then some '"'
  else none

/-- Modelled from the spec: `escaper::decode_html` (external crate).  Decodes
HTML character entities left to right; `none` models a decode error, which the
caller recovers from by falling back to the pre-decode text. -/
def decodeHtml : List Char → Option (List Char)
  | [] => some []
  | c :: rest =>
    if c = '&' then
      if (rest.dropWhile (fun x => x ≠ ';')).head? = some ';' then
        match entityChar (rest.takeWhile (fun x => x ≠ ';')) with
        | some e => (decodeHtml (rest.dropWhile (fun x => x ≠ ';')).tail).map (fun t => e :: t)
        | none => none
      else none
    else (decodeHtml rest).map (fun t => c :: t)
termination_by l => l.length
decreasing_by
  · have h2 : ((rest.dropWhile (fun x => x ≠ ';'))).length ≤ rest.length :=
      (List.dropWhile_sublist _).length_le
    have h3 := List.length_tail ((rest.dropWhile (fun x => x ≠ ';')))
    simp only [List.length_cons]
    omega
  · simp

/-- `RE_MULT_LINE_BREAKS.replace_all(s, "\n\n")`: every maximal run of three or
more line-break characters (`((\r\n)|\r|\n){3,}`, which any such run matches)
collapses to exactly two `'\n'`; shorter runs are kept verbatim. -/
def collapseLB : List Char → List Char
  | [] => []
  | c :: rest =>
    if isLB c then
      (if 3 ≤ (c :: rest.takeWhile isLB).length then ['\n', '\n'] else c :: rest.takeWhile isLB)
        ++ collapseLB (rest.dropWhile isLB)
    else c :: collapseLB rest
termination_by l => l.length
decreasing_by
  · simp only [List.length_cons]
    exact Nat.lt_succ_of_le ((List.dropWhile_sublist _).length_le)
  · simp

/-- The four-step description pipeline of `update_details_panel`: break-tag
replacement, tag stripping, entity decoding with fallback to the pre-decode
text on error, and collapsing of long line-break runs. -/
def sanitize_description (s : String) : String :=
  let br_to_lb := brReplace s.toList
  let stripped_tags := stripTags br_to_lb
  let decoded :=
    match decodeHtml stripped_tags with
    | none => stripped_tags
    | some d => d
  String.mk (collapseLB decoded)

/-- Three consecutive line-break characters occur somewhere in the list — the
condition under which `RE_MULT_LINE_BREAKS` still has a match. -/
def hasTriple : List Char → Bool
  | [] => false
  | [_] => false
  | [_, _] => false
  | c1 :: c2 :: c3 :: rest => (isLB c1 && isLB c2 && isLB c3) || hasTriple (c2 :: c3 :: rest)

/-! ## Data model -/

/-- `FilterType` (`types.rs`); only the two variants used by the examined
source are modelled. -/
inductive FilterType
  | Played
  | Downloaded
deriving DecidableEq

/-- The outbound-intent sum type `UiMsg` sent from the UI thread to the main
controller. -/
inductive UiMsg
  | AddFeed (url : String)
  | Play (pod_id ep_id : Int)
  | MarkPlayed (pod_id ep_id : Int) (played : Bool)
  | MarkAllPlayed (pod_id : Int) (played : Bool)
  | Sync (pod_id : Int)
  | SyncAll
  | Download (pod_id ep_id : Int)
  | DownloadMulti (eps : List (Int × Int))
  | DownloadAll (pod_id : Int)
  | UnmarkDownloaded (pod_id ep_id : Int)
  | Delete (pod_id ep_id : Int)
  | DeleteAll (pod_id : Int)
  | RemovePodcast (pod_id : Int) (delete_files : Bool)
  | RemoveEpisode (pod_id ep_id : Int) (delete_files : Bool)
  | RemoveAllEpisodes (pod_id : Int) (delete_files : Bool)
  | FilterChange (f : FilterType)
  | Quit
  | Noop
deriving DecidableEq

/-- Scroll requests: direction plus an unsigned magnitude (`u16` in the
source). -/
inductive Scroll
  | Up (amount : Nat)
  | Down (amount : Nat)
deriving DecidableEq

/-- Which of the three panels currently has focus (`ActivePanel`). -/
inductive ActivePanel
  | PodcastMenu
  | EpisodeMenu
  | DetailsPanel
deriving DecidableEq

/-- Modelled from the spec: the logical actions of the keybinding table
(`keymap.rs`, outside the examined source); the variants are exactly those the
examined dispatch code matches on. -/
inductive UserAction
  | Down
  | Up
  | Left
  | Right
  | PageUp
  | PageDown
  | BigUp
  | BigDown
  | GoTop
  | GoBot
  | AddFeed
  | Sync
  | SyncAll
  | Play
  | MarkPlayed
  | MarkAllPlayed
  | Download
  | DownloadAll
  | Delete
  | DeleteAll
  | UnmarkDownloaded
  | Remove
  | RemoveAll
  | FilterPlayed
  | FilterDownloaded
  | Help
  | Quit
deriving DecidableEq

/-- The shared item store (`LockVec`, `types.rs`): the UI reads it through
`borrow_filtered_order()` (ids in filtered display order) and `borrow_map()`
(id-keyed lookup).  The controller thread owns all mutation; since it can run
between any two UI reads, one model value records the two observations the UI
makes during a tick, and the two views need not agree. -/
structure LockVec (α : Type) where
  order : List Int
  map : List (Int × α)
deriving DecidableEq

/-- `borrow_map().get(&id)`: id-keyed lookup in the map view. -/
def LockVec.lookup {α : Type} (v : LockVec α) (id : Int) : Option α :=
  (v.map.find? (fun kv => kv.1 = id)).map Prod.snd

/-- `LockVec::map_single(id, f)`: apply `f` to the item with the given id, if
present. -/
def LockVec.map_single {α β : Type} (v : LockVec α) (id : Int) (f : α → β) : Option β :=
  (v.lookup id).map f

/-- One feed item (`Episode`, `types.rs`); the fields read by the examined
source. -/
structure Episode where
  id : Int
  title : String
  description : String
  played : Bool
  path : Option String
  pubdate : Option Int
  duration : Option Int
deriving DecidableEq

/-- Modelled from the spec: `Episode::format_duration` (`types.rs`, outside the
examined source) renders the optional duration for the details record; no claim
depends on the exact format, only on it being a pure function of the episode. -/
def Episode.format_duration (e : Episode) : String :=
  match e.duration with
  | some d => toString d
  | none => "--:--"

/-- One subscribed feed (`Podcast`, `types.rs`); its episodes are a shared
`LockVec` sub-collection. -/
structure Podcast where
  id : Int
  title : String
  explicit : Option Bool
  episodes : LockVec Episode
deriving DecidableEq

/-- Modelled from the spec: `Podcast::is_played` (`types.rs`, outside the
examined source).  Per the spec, a podcast counts as fully played exactly when
every one of its episodes is played. -/
def Podcast.is_played (p : Podcast) : Bool :=
  p.episodes.map.all (fun kv => kv.2.played)

/-- The observable state of a generic scrollable list widget (`Menu`,
`menu.rs`): its shared item collection, on-screen selection index, scroll
offset, and whether it is the visually active panel. -/
structure MenuState (α : Type) where
  items : LockVec α
  selected : Nat
  top_row : Nat
  active : Bool
deriving DecidableEq

/-- `Menu::activate()`. -/
def MenuState.activate {α : Type} (m : MenuState α) : MenuState α :=
  { m with active := true }

/-- Modelled from the spec: widget deactivation clears the active highlight;
the muted-highlight variant passed as a flag in the source differs only in
drawing style, which is outside the modelled state. -/
def MenuState.deactivate {α : Type} (m : MenuState α) : MenuState α :=
  { m with active := false }

/-- Modelled from the spec: the list widget clamps a raw scroll request to the
bounds of its item list (`menu.rs`, outside the examined source).  The split of
the highlighted position into selection and offset is internal to the widget;
the model keeps the combined position in `selected`. -/
def MenuState.scroll {α : Type} (m : MenuState α) (sc : Scroll) : MenuState α :=
  let len := m.items.order.length
  let pos := m.selected + m.top_row
  let newpos : Nat :=
    match sc with
    | Scroll.Up k => pos - k
    | Scroll.Down k => if len = 0 then 0 else min (pos + k) (len - 1)
  { m with selected := newpos, top_row := 0 }

/-- Modelled from the spec: `Menu::get_episodes` (`menu.rs`, outside the
examined source) returns a shared clone of the episode collection of the
currently selected podcast, or an empty collection when the selection does not
resolve. -/
def MenuState.get_episodes (m : MenuState Podcast) : LockVec Episode :=
  match m.items.order[m.selected + m.top_row]? with
  | some pid =>
    match m.items.lookup pid with
    | some pod => pod.episodes
    | none => ⟨[], []⟩
  | none => ⟨[], []⟩

/-- The record handed to the details widget (`Details`,
`details_panel.rs`). -/
structure Details where
  pod_title : Option String
  ep_title : Option String
  pubdate : Option Int
  duration : Option String
  explicit : Option Bool
  description : Option String
deriving DecidableEq

/-- The observable state of the optional details widget: the record it was
last populated with (none right after construction). -/
structure DetailsPanelState where
  contents : Option Details
deriving DecidableEq

/-- A freshly constructed details widget (`DetailsPanel::new`): not yet
populated. -/
def fresh_details_panel : DetailsPanelState := { contents := none }

/-- The UI state (`Ui` struct): terminal size, the two list widgets, the
optional details widget, and the focused panel.  The keymap, colors,
notification and popup windows carry no state any claim depends on. -/
structure UiState where
  n_row : Nat
  n_col : Nat
  podcast_menu : MenuState Podcast
  episode_menu : MenuState Episode
  details_panel : Option DetailsPanelState
  active_panel : ActivePanel
deriving DecidableEq

/-! ## Blocking prompts (`NotifWin::input_notif` and its wrappers) -/

/-- The prompt interaction of one flow: the scripted user answers still
pending (in order; an exhausted script behaves like a cancelled prompt, which
the source reports as an empty string) and the log of prompts issued so far. -/
structure NotifLog where
  answers : List String
  asked : List String
deriving DecidableEq

/-- `NotifWin::input_notif`: block for one line of user input; a cancelled
input is the empty string. -/
def input_notif (msg : String) (s : NotifLog) : String × NotifLog :=
  match s.answers with
  | [] => ("", { s with asked := s.asked ++ [msg] })
  | a :: rest => (a, { answers := rest, asked := s.asked ++ [msg] })

/-- The `str::trim` of the source, character-level: whitespace is removed
from both ends (the model covers the ASCII whitespace characters; the further
Unicode white-space code points Rust also trims make no difference to any
claim). -/
def trim_chars (l : List Char) : List Char :=
  ((l.dropWhile Char.isWhitespace).reverse.dropWhile Char.isWhitespace).reverse

/-- The answer classification inside `spawn_yes_no_notif`: first character of
the trimmed input; `y`/`Y` is an affirmative, `n`/`N` a negative, anything
else (including an empty or cancelled input) is no answer at all. -/
def parse_yes_no (input : String) : Option Bool :=
  match trim_chars input.toList with
  | c :: _ =>
    if c = 'Y' || c = 'y' then some true
    else if c = 'N' || c = 'n' then some false
    else none
  | [] => none

/-- Does the trimmed input start with `y`/`Y`?  (The only answers the flows
treat as a yes.) -/
def starts_with_yes (input : String) : Bool :=
  match trim_chars input.toList with
  | c :: _ => c = 'Y' || c = 'y'
  | [] => false

/-- `Ui::spawn_yes_no_notif`: append `" (y/n) "` to the prompt, ask for a
line, classify it. -/
def spawn_yes_no_notif (msg : String) (s : NotifLog) : Option Bool × NotifLog :=
  let r := input_notif (msg ++ " (y/n) ") s
  (parse_yes_no r.1, r.2)

/-- `Ui::ask_for_confirmation`: a yes/no question whose cancelled or invalid
answers count as a refusal. -/
def ask_for_confirmation (msg : String) (s : NotifLog) : Bool × NotifLog :=
  let r := spawn_yes_no_notif msg s
  (r.1.getD false, r.2)

/-! ## Geometry (`calculate_sizes`) -/

/-- The `u16` modulus; `u16` arithmetic that can exceed it is reduced by it
(release-profile wrap-around). -/
def U16_MOD : Nat := 65536

/-- Modelled from the spec: the configured details-panel visibility threshold
(`config::DETAILS_PANEL_LENGTH`, outside the examined source; the repository
configures 135 columns). -/
def DETAILS_PANEL_LENGTH : Nat := 135

/-- Modelled from the spec: the configured big-scroll divisor
(`config::BIG_SCROLL_AMOUNT`, outside the examined source); no claim depends
on its value. -/
def BIG_SCROLL_AMOUNT : Nat := 4

/-- `Ui::calculate_sizes`: split the terminal width into podcast, episode and
details columns.  Above the threshold the first two get a third each (rounding
up via the `+ 2`) and the details column the remainder; otherwise the width is
split in two halves and the details column is zero. -/
def calculate_sizes (n_col : Nat) : Nat × Nat × Nat :=
  if DETAILS_PANEL_LENGTH < n_col then
    let pod_col := (n_col + 2) % U16_MOD / 3
    let ep_col := (n_col + 2) % U16_MOD / 3
    let det_col := (n_col + 2) % U16_MOD - pod_col - ep_col
    (pod_col, ep_col, det_col)
  else
    let pod_col := (n_col + 1) % U16_MOD / 2
    let ep_col := (n_col + 1) % U16_MOD - pod_col
    (pod_col, ep_col, 0)

/-! ## Selection resolution and the details refresh -/

/-- `Ui::get_current_ids`: the podcast and episode ids under the cursor,
recomputed from selection plus offset against the filtered order of each
menu. -/
def get_current_ids (ui : UiState) : Option Int × Option Int :=
  (ui.podcast_menu.items.order[ui.podcast_menu.selected + ui.podcast_menu.top_row]?,
   ui.episode_menu.items.order[ui.episode_menu.selected + ui.episode_menu.top_row]?)

/-- The podcast-title field of the details record: stays absent when the
podcast lookup fails or the title is empty (the mutable-default pattern of the
source). -/
def pod_title_of (podOpt : Option Podcast) : Option String :=
  match podOpt with
  | some pod => if pod.title.isEmpty then none else some pod.title
  | none => none

/-- The explicit-flag field of the details record: stays absent when the
podcast lookup fails. -/
def pod_explicit_of (podOpt : Option Podcast) : Option Bool :=
  match podOpt with
  | some pod => pod.explicit
  | none => none

/-- The details record built from a found episode plus whatever podcast data
resolved. -/
def episode_details (pt : Option String) (pe : Option Bool) (ep : Episode) : Details :=
  { pod_title := pt
    ep_title := if ep.title.isEmpty then none else some ep.title
    pubdate := ep.pubdate
    duration := some ep.format_duration
    explicit := pe
    description :=
      if ep.description.isEmpty then none else some (sanitize_description ep.description) }

/-- `Ui::update_details_panel`: with a details widget present and both
selections resolving, look the podcast and episode up again in the map views
and hand the details record to the widget.  A failed episode lookup skips the
refresh; a failed podcast lookup merely leaves the podcast fields absent. -/
def update_details_panel (ui : UiState) : UiState :=
  match ui.details_panel with
  | none => ui
  | some det =>
    match get_current_ids ui with
    | (some pod_id, some ep_id) =>
      let podOpt := ui.podcast_menu.items.lookup pod_id
      match ui.episode_menu.items.lookup ep_id with
      | some ep =>
        let d := episode_details (pod_title_of podOpt) (pod_explicit_of podOpt) ep
        { ui with details_panel := some { det with contents := some d } }
      | none => ui
    | _ => ui

/-! ## Scrolling, focus movement, resizing -/

/-- `Ui::scroll_current_window`: scrolling the podcast menu resets the episode
menu to the top and replaces its contents with the newly selected podcast's
episodes, then refreshes details; scrolling the episode menu refreshes details
only; scrolling the details panel moves only its own text viewport (not part of
the modelled state). -/
def scroll_current_window (ui : UiState) (pod_id : Option Int) (sc : Scroll) : UiState :=
  match ui.active_panel with
  | ActivePanel.PodcastMenu =>
    if pod_id.isSome then
      let pm := ui.podcast_menu.scroll sc
      let em := { ui.episode_menu with top_row := 0, selected := 0, items := pm.get_episodes }
      update_details_panel { ui with podcast_menu := pm, episode_menu := em }
    else ui
  | ActivePanel.EpisodeMenu =>
    if pod_id.isSome then
      update_details_panel { ui with episode_menu := ui.episode_menu.scroll sc }
    else ui
  | ActivePanel.DetailsPanel => ui

/-- `Ui::move_cursor`: directional navigation and scrolling, dispatched on the
action; the id arguments are the resolutions `getch` passes in. -/
def move_cursor (ui : UiState) (action : UserAction)
    (curr_pod_id curr_ep_id : Option Int) : UiState :=
  match action with
  | UserAction.Down => scroll_current_window ui curr_pod_id (Scroll.Down 1)
  | UserAction.Up => scroll_current_window ui curr_pod_id (Scroll.Up 1)
  | UserAction.Left =>
    if curr_pod_id.isSome then
      match ui.active_panel with
      | ActivePanel.PodcastMenu => ui
      | ActivePanel.EpisodeMenu =>
        { ui with active_panel := ActivePanel.PodcastMenu,
                  podcast_menu := ui.podcast_menu.activate,
                  episode_menu := ui.episode_menu.deactivate }
      | ActivePanel.DetailsPanel =>
        { ui with active_panel := ActivePanel.EpisodeMenu,
                  episode_menu := ui.episode_menu.activate }
    else ui
  | UserAction.Right =>
    if curr_pod_id.isSome && curr_ep_id.isSome then
      match ui.active_panel with
      | ActivePanel.PodcastMenu =>
        { ui with active_panel := ActivePanel.EpisodeMenu,
                  podcast_menu := ui.podcast_menu.deactivate,
                  episode_menu := ui.episode_menu.activate }
      | ActivePanel.EpisodeMenu =>
        if ui.details_panel.isSome then
          { ui with active_panel := ActivePanel.DetailsPanel,
                    episode_menu := ui.episode_menu.deactivate }
        else ui
      | ActivePanel.DetailsPanel => ui
    else ui
  | UserAction.PageUp => scroll_current_window ui curr_pod_id (Scroll.Up (ui.n_row - 3))
  | UserAction.PageDown => scroll_current_window ui curr_pod_id (Scroll.Down (ui.n_row - 3))
  | UserAction.BigUp =>
    scroll_current_window ui curr_pod_id (Scroll.Up (ui.n_row / BIG_SCROLL_AMOUNT))
  | UserAction.BigDown =>
    scroll_current_window ui curr_pod_id (Scroll.Down (ui.n_row / BIG_SCROLL_AMOUNT))
  | UserAction.GoTop => scroll_current_window ui curr_pod_id (Scroll.Up 65535)
  | UserAction.GoBot => scroll_current_window ui curr_pod_id (Scroll.Down 65535)
  | _ => ui

/-- `Ui::resize`: recompute column widths; drop the details widget when its
column shrinks to zero (moving an orphaned focus back to the episode menu) and
construct plus populate one when the column reappears.  The in-place widget
resizes of the menus are outside the modelled state. -/
def resize (ui : UiState) (n_col n_row : Nat) : UiState :=
  let ui1 : UiState := { ui with n_row := n_row, n_col := n_col }
  let det_col := (calculate_sizes n_col).2.2
  match ui1.details_panel with
  | some _ =>
    if 0 < det_col then update_details_panel ui1
    else
      let ui2 : UiState := { ui1 with details_panel := none }
      match ui2.active_panel with
      | ActivePanel.DetailsPanel =>
        { ui2 with active_panel := ActivePanel.EpisodeMenu,
                   episode_menu := ui2.episode_menu.activate }
      | _ => ui2
  | none =>
    if 0 < det_col then
      update_details_panel { ui1 with details_panel := some fresh_details_panel }
    else ui1

/-! ## Played-state toggles and the removal flows -/

/-- `Ui::mark_all_played`: with a podcast selected and found, toggle against
its current fully-played status. -/
def mark_all_played (ui : UiState) (curr_pod_id : Option Int) : Option UiMsg :=
  match curr_pod_id with
  | some pod_id =>
    match ui.podcast_menu.items.map_single pod_id Podcast.is_played with
    | some played => some (UiMsg.MarkAllPlayed pod_id (!played))
    | none => none
  | none => none

/-- `Ui::check_for_local_files`: does the given podcast have at least one
episode with a local file?  The outer `none` models the panic of the `expect`
call when the podcast id is no longer in the map view. -/
def check_for_local_files (pods : LockVec Podcast) (pod_id : Int) : Option Bool :=
  match pods.lookup pod_id with
  | some pod => some (pod.episodes.map.any (fun kv => kv.2.path.isSome))
  | none => none

/-- `Ui::remove_podcast`: confirm first; then, with a podcast selected, ask
about local files only when some exist, defaulting to keeping them.  The outer
`none` models the panic inside `check_for_local_files`. -/
def remove_podcast (pods : LockVec Podcast) (curr_pod_id : Option Int)
    (s : NotifLog) : Option (Option UiMsg × NotifLog) :=
  let c := ask_for_confirmation "Are you sure you want to remove the podcast?" s
  if !c.1 then some (none, c.2)
  else
    match curr_pod_id with
    | some pod_id =>
      match check_for_local_files pods pod_id with
      | none => none
      | some has_local =>
        if has_local then
          let d := spawn_yes_no_notif "Delete local files too?" c.2
          some (some (UiMsg.RemovePodcast pod_id (d.1.getD false)), d.2)
        else some (some (UiMsg.RemovePodcast pod_id false), c.2)
    | none => some (none, c.2)

/-- `Ui::remove_episode`: confirm first; then, with both ids selected, ask
about the local file only when the episode has one (a failed lookup counts as
not downloaded), defaulting to keeping it. -/
def remove_episode (eps : LockVec Episode) (curr_pod_id curr_ep_id : Option Int)
    (s : NotifLog) : Option UiMsg × NotifLog :=
  let c := ask_for_confirmation "Are you sure you want to remove the episode?" s
  if !c.1 then (none, c.2)
  else
    match curr_pod_id with
    | some pod_id =>
      match curr_ep_id with
      | some ep_id =>
        if (eps.map_single ep_id (fun ep => ep.path.isSome)).getD false then
          let d := spawn_yes_no_notif "Delete local file too?" c.2
          (some (UiMsg.RemoveEpisode pod_id ep_id (d.1.getD false)), d.2)
        else (some (UiMsg.RemoveEpisode pod_id ep_id false), c.2)
      | none => (none, c.2)
    | none => (none, c.2)

/-- `Ui::remove_all_episodes`: with a podcast selected, ask about local files
only when some exist and emit the intent.  The outer `none` models the panic
inside `check_for_local_files`. -/
def remove_all_episodes (pods : LockVec Podcast) (curr_pod_id : Option Int)
    (s : NotifLog) : Option (Option UiMsg × NotifLog) :=
  match curr_pod_id with
  | some pod_id =>
    match check_for_local_files pods pod_id with
    | none => none
    | some has_local =>
      if has_local then
        let d := spawn_yes_no_notif "Delete local files too?" s
        some (some (UiMsg.RemoveAllEpisodes pod_id (d.1.getD false)), d.2)
      else some (some (UiMsg.RemoveAllEpisodes pod_id false), s)
  | none => some (none, s)

/-- The `UserAction::RemoveAll` branch of `Ui::getch`: dispatch on the focused
panel; a `none` message falls through to `Noop`. -/
def handle_remove_all (ui : UiState) (s : NotifLog) : Option (Option UiMsg × NotifLog) :=
  match ui.active_panel with
  | ActivePanel.PodcastMenu => remove_podcast ui.podcast_menu.items (get_current_ids ui).1 s
  | ActivePanel.EpisodeMenu => remove_all_episodes ui.podcast_menu.items (get_current_ids ui).1 s
  | ActivePanel.DetailsPanel => some (none, s)

/-! ## Concrete states used by counterexamples and witnesses -/

/-- An episode with no local file (not downloaded), already sanitized empty
description. -/
def ep_plain : Episode := ⟨10, "ep", "", false, none, none, none⟩

/-- An episode with a local file (downloaded). -/
def ep_downloaded : Episode := ⟨11, "ep-dl", "", false, some "f.mp3", none, none⟩

/-- A podcast whose single episode has no local file. -/
def pod_clean : Podcast := ⟨1, "pod", none, ⟨[10], [(10, ep_plain)]⟩⟩

/-- A podcast whose single episode is downloaded. -/
def pod_dl : Podcast := ⟨2, "pod-dl", none, ⟨[11], [(11, ep_downloaded)]⟩⟩

/-- A store holding only `pod_clean`. -/
def pods_clean : LockVec Podcast := ⟨[1], [(1, pod_clean)]⟩

/-- A store holding only `pod_dl`. -/
def pods_dl : LockVec Podcast := ⟨[2], [(2, pod_dl)]⟩

/-- A UI focused on the episode list, `pod_clean` selected. -/
def ui_episode_focus : UiState :=
  ⟨24, 80, ⟨pods_clean, 0, 0, false⟩, ⟨pod_clean.episodes, 0, 0, true⟩, none,
    ActivePanel.EpisodeMenu⟩

/-- A UI focused on the podcast list with a selected podcast that has no
episodes, so no episode is selected. -/
def ui_pod_focus_no_episode : UiState :=
  ⟨24, 80, ⟨⟨[1], [(1, ⟨1, "pod", none, ⟨[], []⟩⟩)]⟩, 0, 0, true⟩, ⟨⟨[], []⟩, 0, 0, false⟩,
    none, ActivePanel.PodcastMenu⟩

/-- A UI focused on the podcast list with two podcasts, the first selected. -/
def ui_two_pods : UiState :=
  ⟨24, 80, ⟨⟨[1, 2], [(1, pod_clean), (2, pod_dl)]⟩, 0, 0, true⟩,
    ⟨pod_clean.episodes, 0, 0, false⟩, none, ActivePanel.PodcastMenu⟩

/-- A UI whose details panel exists and holds the focus. -/
def ui_details_focus : UiState :=
  ⟨24, 200, ⟨pods_clean, 0, 0, false⟩, ⟨pod_clean.episodes, 0, 0, false⟩,
    some fresh_details_panel, ActivePanel.DetailsPanel⟩

/-- A UI observed mid-mutation: the episode order view still lists id `99`,
but the map view no longer contains it (the item disappeared between the two
reads of the same tick). -/
def ui_desync : UiState :=
  ⟨24, 200, ⟨pods_clean, 0, 0, false⟩, ⟨⟨[99], []⟩, 0, 0, true⟩,
    some fresh_details_panel, ActivePanel.EpisodeMenu⟩

/-! # Shared lemmas -/

/-- The details refresh touches nothing but the details widget. -/
theorem update_details_panel_fields (ui : UiState) :
    (update_details_panel ui).podcast_menu = ui.podcast_menu ∧
    (update_details_panel ui).episode_menu = ui.episode_menu ∧
    (update_details_panel ui).active_panel = ui.active_panel ∧
    (update_details_panel ui).n_row = ui.n_row ∧
    (update_details_panel ui).n_col = ui.n_col ∧
    (update_details_panel ui).details_panel.isSome = ui.details_panel.isSome := by
  unfold update_details_panel
  split
  · simp
  · rename_i det hdet
    split
    · split
      · simp [hdet]
      · simp
    · simp

/-- The yes/no answer defaults: the delete flag obtained from a prompt answer
is set exactly when the trimmed answer starts with `y`/`Y`. -/
theorem parse_yes_no_getD (a : String) :
    (parse_yes_no a).getD false = starts_with_yes a := by
  unfold parse_yes_no starts_with_yes
  rcases h : trim_chars a.toList with _ | ⟨c, cs⟩
  · simp
  · by_cases hy : (c = 'Y' || c = 'y') = true
    · simp [hy]
    · by_cases hn : (c = 'N' || c = 'n') = true
      · simp [hy, hn]
      · simp [hy, hn]

/-! # Claim C6 -/

/-- C6 counterexample: at terminal width 65534 the `u16` computation
`n_col + 2` wraps around to zero, so although the width is far above the
details threshold, all three returned widths are zero — in particular the
details width is zero, refuting the claimed "details width is non-zero
whenever the width exceeds the threshold" (a debug build would instead abort
on the overflow, refuting the claim as well). -/
theorem c6_counterexample :
    DETAILS_PANEL_LENGTH < 65534 ∧ calculate_sizes 65534 = (0, 0, 0) := by
  constructor
  · decide
  · rfl

/-- C6 (amended): for every `u16` width except 65534, `calculate_sizes` is
consistent with the claim: below or at the threshold the two visible columns
sum to `w + 1` and the details column is zero; above the threshold the three
columns sum to `w + 2` reduced mod `2^16` and the details column is non-zero.
At `w = 65534` the wrap-around of `w + 2` makes all three widths zero.
Determinism is immediate: the function is a pure function of `w`. -/
theorem c6_amended (w : Nat) (hw : w < U16_MOD) (hne : w ≠ 65534) :
    (w ≤ DETAILS_PANEL_LENGTH →
      (calculate_sizes w).1 + (calculate_sizes w).2.1 = w + 1 ∧
      (calculate_sizes w).2.2 = 0) ∧
    (DETAILS_PANEL_LENGTH < w →
      (calculate_sizes w).1 + (calculate_sizes w).2.1 + (calculate_sizes w).2.2 =
        (w + 2) % U16_MOD ∧
      (calculate_sizes w).2.2 ≠ 0) := by
  unfold calculate_sizes DETAILS_PANEL_LENGTH U16_MOD at *
  constructor
  · intro h
    rw [if_neg (by omega)]
    dsimp only
    omega
  · intro h
    rw [if_pos (by omega)]
    dsimp only
    omega

/-- C6 witness: the amended theorem applied at width 200. -/
theorem c6_witness :
    (calculate_sizes 200).1 + (calculate_sizes 200).2.1 + (calculate_sizes 200).2.2 = 202 ∧
    (calculate_sizes 200).2.2 ≠ 0 := by
  have h := (c6_amended 200 (by decide) (by decide)).2 (by decide)
  exact ⟨h.1.trans (by decide), h.2⟩

/-! # Claim C10 -/

/-- C10: in both the remove-podcast and the remove-episode flow the blocking
yes/no confirmation is issued before the selection is examined: with no
podcast (respectively no episode) selected, the confirmation question is still
asked (it appears in the prompt log and consumes the first scripted answer),
and whatever that answer is — affirmative included — no outbound intent is
produced. -/
theorem c10_confirmation_asked_without_selection :
    (∀ pods : LockVec Podcast, ∀ s : NotifLog,
      remove_podcast pods none s =
        some (none, ⟨s.answers.tail,
          s.asked ++ ["Are you sure you want to remove the podcast? (y/n) "]⟩)) ∧
    (∀ eps : LockVec Episode, ∀ cp : Option Int, ∀ s : NotifLog,
      remove_episode eps cp none s =
        (none, ⟨s.answers.tail,
          s.asked ++ ["Are you sure you want to remove the episode? (y/n) "]⟩)) := by
  constructor
  · intro pods s
    unfold remove_podcast ask_for_confirmation spawn_yes_no_notif input_notif
    cases s with
    | mk answers asked =>
      cases answers with
      | nil => simp [parse_yes_no]
      | cons a rest =>
        by_cases hb : (parse_yes_no a).getD false = true
        · simp [hb]
        · simp [hb]
  · intro eps cp s
    unfold remove_episode ask_for_confirmation spawn_yes_no_notif input_notif
    cases s with
    | mk answers asked =>
      cases answers with
      | nil => cases cp <;> simp [parse_yes_no]
      | cons a rest =>
        by_cases hb : (parse_yes_no a).getD false = true
        · cases cp <;> simp [hb]
        · cases cp <;> simp [hb]

/-! # Claim C3 -/

/-- C3 counterexample: a state with focus on the podcast list and a podcast
selected but no episode selected (the selected podcast has no episodes).  The
Right input does not transfer focus to the episode list, so a selected podcast
is not the only precondition of this transition: the source guards every Right
move by `curr_pod_id.is_some() && curr_ep_id.is_some()`. -/
theorem c3_counterexample :
    (get_current_ids ui_pod_focus_no_episode).1 = some 1 ∧
    (get_current_ids ui_pod_focus_no_episode).2 = none ∧
    ui_pod_focus_no_episode.active_panel = ActivePanel.PodcastMenu ∧
    (move_cursor ui_pod_focus_no_episode UserAction.Right
        (get_current_ids ui_pod_focus_no_episode).1
        (get_current_ids ui_pod_focus_no_episode).2).active_panel ≠
      ActivePanel.EpisodeMenu := by
  decide

/-- C3 (amended): with focus on the podcast list, a Right input transfers
focus to the episode list — deactivating the podcast widget and activating the
episode widget — when both a podcast and an episode are selected; with no
episode selected the input changes nothing. -/
theorem c3_amended :
    (∀ ui : UiState, ∀ p e : Int, ui.active_panel = ActivePanel.PodcastMenu →
      ((move_cursor ui UserAction.Right (some p) (some e)).active_panel =
          ActivePanel.EpisodeMenu ∧
       (move_cursor ui UserAction.Right (some p) (some e)).podcast_menu.active = false ∧
       (move_cursor ui UserAction.Right (some p) (some e)).episode_menu.active = true)) ∧
    (∀ ui : UiState, ∀ cp : Option Int, move_cursor ui UserAction.Right cp none = ui) := by
  constructor
  · intro ui p e hfocus
    unfold move_cursor
    rw [hfocus]
    simp [MenuState.activate, MenuState.deactivate]
  · intro ui cp
    unfold move_cursor
    simp

/-- C3 witness: the amended theorem applied to a concrete state with both a
podcast and an episode selected. -/
theorem c3_witness :
    (move_cursor ui_two_pods UserAction.Right (some 1) (some 10)).active_panel =
      ActivePanel.EpisodeMenu ∧
    (move_cursor ui_two_pods UserAction.Right (some 1) (some 10)).episode_menu.active = true := by
  have h := c3_amended.1 ui_two_pods 1 10 (by decide)
  exact ⟨h.1, h.2.2⟩

/-! # Claim C5 -/

/-- C5: with no podcast selected, Mark-all-played emits nothing; with a
selected podcast found in the store, the emitted toggle is the negation of its
fully-played status: any unplayed episode makes the emitted target state
`true` (set all played), and only when every episode is already played is the
emitted target state `false` (set all unplayed). -/
theorem c5_mark_all_played_toggle :
    (∀ ui : UiState, mark_all_played ui none = none) ∧
    (∀ ui : UiState, ∀ pid : Int, ∀ pod : Podcast,
      ui.podcast_menu.items.lookup pid = some pod →
      (pod.episodes.map.any (fun kv => !kv.2.played) = true →
        mark_all_played ui (some pid) = some (UiMsg.MarkAllPlayed pid true)) ∧
      (pod.episodes.map.all (fun kv => kv.2.played) = true →
        mark_all_played ui (some pid) = some (UiMsg.MarkAllPlayed pid false))) := by
  constructor
  · intro ui
    rfl
  · intro ui pid pod hl
    unfold mark_all_played LockVec.map_single
    dsimp only
    rw [hl]
    simp only [Option.map_some']
    unfold Podcast.is_played
    constructor
    · intro hany
      obtain ⟨kv, hmem, hnp⟩ := List.any_eq_true.mp hany
      have hall : pod.episodes.map.all (fun kv => kv.2.played) = false := by
        cases hcase : pod.episodes.map.all (fun kv => kv.2.played) with
        | false => rfl
        | true =>
          have := List.all_eq_true.mp hcase kv hmem
          simp only [this] at hnp
          cases hnp
      rw [hall]
      rfl
    · intro hall
      rw [hall]
      rfl

/-- C5 witness: the toggle applied to a concrete state whose selected podcast
has one unplayed episode. -/
theorem c5_witness :
    mark_all_played ui_two_pods (some 1) = some (UiMsg.MarkAllPlayed 1 true) := by
  have h := (c5_mark_all_played_toggle.2 ui_two_pods 1 pod_clean (by rfl)).1 (by rfl)
  exact h

/-! # Claim C1 -/

/-- C1 counterexample: Remove-all with focus on the episode list and a podcast
selected emits `RemoveAllEpisodes` although no confirmation question was ever
asked (the prompt log of the result is empty, and the empty answer script
means the user never gave an affirmative answer).  `remove_all_episodes` has
no confirmation step at all, so the claimed two-question protocol is not run
from scratch for this flow. -/
theorem c1_counterexample :
    handle_remove_all ui_episode_focus ⟨[], []⟩ =
      some (some (UiMsg.RemoveAllEpisodes 1 false), ⟨[], []⟩) := by
  rfl

/-- C1 (amended): the remove-all-episodes flow asks no yes/no confirmation.
With a selected podcast present in the store it always emits
`RemoveAllEpisodes`; the only question it can ask is the delete-local-files
question; with no local files it asks nothing and the delete flag is false;
and the delete flag can only be true when the first scripted answer starts
with `y`/`Y`. -/
theorem c1_amended :
    ∀ pods : LockVec Podcast, ∀ pid : Int, ∀ pod : Podcast, ∀ s : NotifLog,
      pods.lookup pid = some pod →
      ∃ d : Bool, ∃ s2 : NotifLog,
        remove_all_episodes pods (some pid) s =
          some (some (UiMsg.RemoveAllEpisodes pid d), s2) ∧
        (∀ q : String, q ∈ s2.asked → q ∈ s.asked ∨ q = "Delete local files too? (y/n) ") ∧
        (pod.episodes.map.all (fun kv => kv.2.path.isNone) = true → d = false ∧ s2 = s) ∧
        (d = true → starts_with_yes (s.answers.headD "") = true) := by
  intro pods pid pod s hl
  obtain ⟨answers, asked⟩ := s
  unfold remove_all_episodes check_for_local_files spawn_yes_no_notif input_notif
  dsimp only
  rw [hl]
  dsimp only
  cases hany : pod.episodes.map.any (fun kv => kv.2.path.isSome) with
  | false =>
    exact ⟨false, ⟨answers, asked⟩, by simp, fun q hq => Or.inl hq,
      fun _ => ⟨rfl, rfl⟩, by simp⟩
  | true =>
    have hcontra : ¬ pod.episodes.map.all (fun kv => kv.2.path.isNone) = true := by
      intro hall
      obtain ⟨kv, hmem, hp⟩ := List.any_eq_true.mp hany
      have h2 := List.all_eq_true.mp hall kv hmem
      simp only [Option.isNone_iff_eq_none] at h2
      rw [h2] at hp
      cases hp
    cases answers with
    | nil =>
      refine ⟨(parse_yes_no "").getD false,
        ⟨[], asked ++ ["Delete local files too? (y/n) "]⟩, by simp, ?_,
        fun hall => absurd hall hcontra, ?_⟩
      · intro q hq
        simp only [List.mem_append, List.mem_singleton] at hq
        exact hq
      · intro hd
        rw [parse_yes_no_getD] at hd
        exact hd
    | cons a rest =>
      refine ⟨(parse_yes_no a).getD false,
        ⟨rest, asked ++ ["Delete local files too? (y/n) "]⟩, by simp, ?_,
        fun hall => absurd hall hcontra, ?_⟩
      · intro q hq
        simp only [List.mem_append, List.mem_singleton] at hq
        exact hq
      · intro hd
        rw [parse_yes_no_getD] at hd
        exact hd

/-- C1 witness: the amended theorem applied to a concrete store with a
downloaded episode and an affirmative answer script. -/
theorem c1_witness :
    ∃ d : Bool, ∃ s2 : NotifLog,
      remove_all_episodes pods_dl (some 2) ⟨["y"], []⟩ =
        some (some (UiMsg.RemoveAllEpisodes 2 d), s2) := by
  obtain ⟨d, s2, h, -, -, -⟩ := c1_amended pods_dl 2 pod_dl ⟨["y"], []⟩ (by rfl)
  exact ⟨d, s2, h⟩

/-! # Claim C7 -/

/-- C7: in the remove-podcast flow, after an affirmative confirmation for a
selected podcast that is present in the store: with zero downloaded episodes
the delete-files question is never asked (only the confirmation appears in the
prompt log) and the emitted intent carries `delete_files = false`; with at
least one downloaded episode the question is asked and the flag is computed
from the next answer; and for every answer, the flag is set exactly when the
trimmed answer starts with `y`/`Y` — so cancellation and invalid answers
default to not deleting. -/
theorem c7_remove_podcast_delete_files :
    ∀ pods : LockVec Podcast, ∀ pid : Int, ∀ pod : Podcast,
    ∀ ans1 : String, ∀ rest : List String, ∀ asked0 : List String,
      pods.lookup pid = some pod →
      parse_yes_no ans1 = some true →
      ((pod.episodes.map.all (fun kv => kv.2.path.isNone) = true →
        remove_podcast pods (some pid) ⟨ans1 :: rest, asked0⟩ =
          some (some (UiMsg.RemovePodcast pid false),
            ⟨rest, asked0 ++ ["Are you sure you want to remove the podcast? (y/n) "]⟩)) ∧
       (pod.episodes.map.any (fun kv => kv.2.path.isSome) = true →
        remove_podcast pods (some pid) ⟨ans1 :: rest, asked0⟩ =
          some (some (UiMsg.RemovePodcast pid ((parse_yes_no (rest.headD "")).getD false)),
            ⟨rest.tail, asked0 ++ ["Are you sure you want to remove the podcast? (y/n) ",
              "Delete local files too? (y/n) "]⟩)) ∧
       (∀ a : String, (parse_yes_no a).getD false = starts_with_yes a)) := by
  intro pods pid pod ans1 rest asked0 hl hyes
  unfold remove_podcast ask_for_confirmation spawn_yes_no_notif input_notif
    check_for_local_files
  dsimp only
  rw [hyes, hl]
  dsimp only
  refine ⟨?_, ?_, parse_yes_no_getD⟩
  · intro hall
    have hany : pod.episodes.map.any (fun kv => kv.2.path.isSome) = false := by
      cases hcase : pod.episodes.map.any (fun kv => kv.2.path.isSome) with
      | false => rfl
      | true =>
        obtain ⟨kv, hmem, hp⟩ := List.any_eq_true.mp hcase
        have h2 := List.all_eq_true.mp hall kv hmem
        simp only [Option.isNone_iff_eq_none] at h2
        rw [h2] at hp
        cases hp
    rw [hany]
    simp
  · intro hany
    rw [hany]
    cases rest with
    | nil => simp
    | cons a rest2 => simp

/-- C7 witness: the theorem applied to a concrete store whose podcast has a
downloaded episode, an affirmative confirmation, and a non-`y` answer to the
delete-files question — the emitted flag is false. -/
theorem c7_witness :
    remove_podcast pods_dl (some 2) ⟨["y", "x"], []⟩ =
      some (some (UiMsg.RemovePodcast 2 false),
        ⟨[], ["Are you sure you want to remove the podcast? (y/n) ",
          "Delete local files too? (y/n) "]⟩) := by
  have h := ((c7_remove_podcast_delete_files pods_dl 2 pod_dl "y" ["x"] []
    (by rfl) (by rfl)).2.1 (by rfl))
  exact h.trans (by rfl)

/-! # Claim C2 -/

/-- C2 counterexample: a store observed after the selected podcast (id 1,
still present in the order view the selection was resolved from) disappeared
from the map view.  The podcast lookup inside the downloaded-files check does
not treat this as nothing-to-show: the result is the modelled panic (the
`expect "Could not retrieve podcast info."` of the source), refuting "never
raised as an error (no panic, no abort)". -/
theorem c2_counterexample : check_for_local_files ⟨[1], []⟩ 1 = none := by
  rfl

/-- C2 (amended): the two lookups inside the details refresh do tolerate an
item disappearing between the selection-resolution read and the detail-lookup
read — a vanished episode silently skips the refresh, a vanished podcast
merely leaves the podcast fields absent — but the podcast lookup inside the
downloaded-files check does not: it panics (the modelled `none`) exactly when
the podcast is no longer in the map view. -/
theorem c2_amended :
    (∀ ui : UiState, ∀ pid eid : Int,
      get_current_ids ui = (some pid, some eid) →
      ui.episode_menu.items.lookup eid = none →
      update_details_panel ui = ui) ∧
    (∀ ui : UiState, ∀ det : DetailsPanelState, ∀ pid eid : Int, ∀ ep : Episode,
      ui.details_panel = some det →
      get_current_ids ui = (some pid, some eid) →
      ui.podcast_menu.items.lookup pid = none →
      ui.episode_menu.items.lookup eid = some ep →
      (update_details_panel ui).details_panel =
        some ⟨some (episode_details none none ep)⟩) ∧
    (∀ pods : LockVec Podcast, ∀ pid : Int,
      (check_for_local_files pods pid = none ↔ pods.lookup pid = none)) := by
  refine ⟨?_, ?_, ?_⟩
  · intro ui pid eid hids heps
    unfold update_details_panel
    cases hdp : ui.details_panel with
    | none => rfl
    | some det =>
      rw [hids]
      dsimp only
      rw [heps]
  · intro ui det pid eid ep hdp hids hpod heps
    unfold update_details_panel
    rw [hdp, hids]
    dsimp only
    rw [heps, hpod]
    simp [pod_title_of, pod_explicit_of]
  · intro pods pid
    unfold check_for_local_files
    cases hl : pods.lookup pid with
    | none => simp
    | some pod => simp

/-- C2 witness: the amended theorem applied to a concrete state in which the
episode id under the cursor is still listed in the order view but gone from
the map view — the details refresh of that tick is silently skipped. -/
theorem c2_witness : update_details_panel ui_desync = ui_desync := by
  exact c2_amended.1 ui_desync 1 99 (by rfl) (by rfl)

/-! # Claim C4 -/

/-- C4: a scroll handled while the podcast list has focus and a podcast is
selected leaves the podcast menu scrolled, resets the episode menu selection
and offset to zero, and replaces the episode menu contents with exactly the
episode collection of the podcast now selected (the empty collection when the
new selection resolves to no podcast). -/
theorem c4_scroll_refreshes_episode_menu :
    ∀ ui : UiState, ∀ pid : Int, ∀ sc : Scroll,
      ui.active_panel = ActivePanel.PodcastMenu →
      ((scroll_current_window ui (some pid) sc).podcast_menu =
          ui.podcast_menu.scroll sc ∧
       (scroll_current_window ui (some pid) sc).episode_menu.selected = 0 ∧
       (scroll_current_window ui (some pid) sc).episode_menu.top_row = 0 ∧
       (scroll_current_window ui (some pid) sc).episode_menu.items =
          (ui.podcast_menu.scroll sc).get_episodes ∧
       (∀ npid : Int, ∀ pod : Podcast,
         (ui.podcast_menu.scroll sc).items.order[
             (ui.podcast_menu.scroll sc).selected + (ui.podcast_menu.scroll sc).top_row]? =
           some npid →
         (ui.podcast_menu.scroll sc).items.lookup npid = some pod →
         (scroll_current_window ui (some pid) sc).episode_menu.items = pod.episodes)) := by
  intro ui pid sc hfocus
  unfold scroll_current_window
  rw [hfocus]
  simp only [Option.isSome_some, if_true]
  refine ⟨?_, ?_, ?_, ?_, ?_⟩
  · rw [(update_details_panel_fields _).1]
  · rw [(update_details_panel_fields _).2.1]
  · rw [(update_details_panel_fields _).2.1]
  · rw [(update_details_panel_fields _).2.1]
  · intro npid pod hord hlook
    rw [(update_details_panel_fields _).2.1]
    show (ui.podcast_menu.scroll sc).get_episodes = pod.episodes
    unfold MenuState.get_episodes
    rw [hord]
    dsimp only
    rw [hlook]

/-- C4 witness: the theorem applied to a concrete two-podcast state scrolled
down by one: the episode menu now holds exactly the second podcast's episode
collection, with selection and offset zero. -/
theorem c4_witness :
    (scroll_current_window ui_two_pods (some 1) (Scroll.Down 1)).episode_menu.selected = 0 ∧
    (scroll_current_window ui_two_pods (some 1) (Scroll.Down 1)).episode_menu.top_row = 0 ∧
    (scroll_current_window ui_two_pods (some 1) (Scroll.Down 1)).episode_menu.items =
      pod_dl.episodes := by
  obtain ⟨-, hsel, htop, -, hlast⟩ :=
    c4_scroll_refreshes_episode_menu ui_two_pods 1 (Scroll.Down 1) (by rfl)
  exact ⟨hsel, htop, hlast 2 pod_dl (by rfl) (by rfl)⟩

/-! # Claim C9 -/

/-- C9: for every resize event: when the recomputed details column is zero
while a details widget exists, the widget is destroyed, and if it held focus,
focus moves to the episode list and that widget is activated; when the details
column is non-zero while no details widget exists, a new widget is constructed
and immediately populated from the current selection (when it resolves to a
live episode, the widget holds exactly that episode's details record); and the
invariant "focus on the details pane implies the details widget exists" is
preserved by every resize. -/
theorem c9_resize_details :
    ∀ ui : UiState, ∀ w h : Nat,
      (ui.details_panel.isSome = true → (calculate_sizes w).2.2 = 0 →
        ((resize ui w h).details_panel = none ∧
         (ui.active_panel = ActivePanel.DetailsPanel →
           (resize ui w h).active_panel = ActivePanel.EpisodeMenu ∧
           (resize ui w h).episode_menu.active = true))) ∧
      (ui.details_panel = none → 0 < (calculate_sizes w).2.2 →
        ((resize ui w h).details_panel.isSome = true ∧
         (∀ pid eid : Int, ∀ ep : Episode,
           get_current_ids ui = (some pid, some eid) →
           ui.episode_menu.items.lookup eid = some ep →
           (resize ui w h).details_panel = some ⟨some (episode_details
             (pod_title_of (ui.podcast_menu.items.lookup pid))
             (pod_explicit_of (ui.podcast_menu.items.lookup pid)) ep)⟩))) ∧
      ((ui.active_panel = ActivePanel.DetailsPanel → ui.details_panel.isSome = true) →
        ((resize ui w h).active_panel = ActivePanel.DetailsPanel →
          (resize ui w h).details_panel.isSome = true)) := by
  intro ui w h
  refine ⟨?_, ?_, ?_⟩
  · intro hsome hz
    unfold resize
    cases hdp : ui.details_panel with
    | none => rw [hdp] at hsome; cases hsome
    | some det =>
      dsimp only
      rw [hz]
      rw [if_neg (by omega)]
      cases hap : ui.active_panel with
      | PodcastMenu => simp
      | EpisodeMenu => simp
      | DetailsPanel =>
        refine ⟨rfl, fun _ => ⟨rfl, ?_⟩⟩
        simp [MenuState.activate]
  · intro hnone hpos
    unfold resize
    rw [hnone]
    dsimp only
    rw [if_pos hpos]
    constructor
    · rw [(update_details_panel_fields _).2.2.2.2.2]
      rfl
    · intro pid eid ep hids heps
      unfold update_details_panel
      have hcg : get_current_ids { ui with n_row := h, n_col := w, details_panel := some fresh_details_panel } = get_current_ids ui := rfl
      rw [hcg, hids]
      dsimp only
      rw [heps]
  · intro hinv hdets
    unfold resize at hdets ⊢
    cases hdp : ui.details_panel with
    | some det =>
      rw [hdp] at hdets
      dsimp only at hdets ⊢
      by_cases hz : 0 < (calculate_sizes w).2.2
      · rw [if_pos hz] at hdets ⊢
        rw [(update_details_panel_fields _).2.2.2.2.2]
        rfl
      · rw [if_neg hz] at hdets ⊢
        cases hap : ui.active_panel with
        | PodcastMenu => rw [hap] at hdets; dsimp only at hdets; cases hdets
        | EpisodeMenu => rw [hap] at hdets; dsimp only at hdets; cases hdets
        | DetailsPanel => rw [hap] at hdets; dsimp only at hdets; cases hdets
    | none =>
      rw [hdp] at hdets
      dsimp only at hdets ⊢
      by_cases hz : 0 < (calculate_sizes w).2.2
      · rw [if_pos hz] at hdets ⊢
        rw [(update_details_panel_fields _).2.2.2.2.2]
        rfl
      · rw [if_neg hz] at hdets ⊢
        have h2 := hinv hdets
        rw [hdp] at h2
        simp at h2

/-- C9 witness: the theorem applied to a concrete state whose details widget
holds focus, resized to 30 columns (below the details threshold): the widget
is destroyed, focus lands on the episode list and that widget is active. -/
theorem c9_witness :
    (resize ui_details_focus 30 10).details_panel = none ∧
    (resize ui_details_focus 30 10).active_panel = ActivePanel.EpisodeMenu ∧
    (resize ui_details_focus 30 10).episode_menu.active = true := by
  obtain ⟨h1, h2⟩ := (c9_resize_details ui_details_focus 30 10).1 (by rfl) (by rfl)
  obtain ⟨h3, h4⟩ := h2 (by rfl)
  exact ⟨h1, h3, h4⟩

/-! # Claim C8 -/

/-- Lists without a `'<'` contain no break tag. -/
theorem parseBrTag_eq_none {l : List Char} (h : '<' ∉ l) : parseBrTag l = none := by
  rw [parseBrTag.eq_def]
  split
  · simp at h
  · rfl

/-- The break-tag replacement is the identity on tag-free text. -/
theorem brReplace_eq_self : ∀ l : List Char, '<' ∉ l → brReplace l = l := by
  intro l
  induction l using brReplace.induct with
  | case1 => intro _; simp [brReplace]
  | case2 c rest hsome ih =>
    intro h
    exfalso
    have hnm : '<' ∉ (c :: rest).dropWhile isLB :=
      fun hm => h ((List.dropWhile_sublist isLB).subset hm)
    rw [parseBrTag_eq_none hnm] at hsome
    simp at hsome
  | case3 c rest hnone ih =>
    intro h
    rw [brReplace.eq_def]
    dsimp only
    rw [dif_neg hnone]
    rw [ih (fun hm => h (List.mem_cons_of_mem _ hm))]

/-- Tag stripping is the identity on tag-free text. -/
theorem stripTags_eq_self : ∀ l : List Char, '<' ∉ l → stripTags l = l := by
  intro l
  induction l using stripTags.induct with
  | case1 => intro _; simp [stripTags]
  | case2 rest hhd ih =>
    intro h
    simp at h
  | case3 rest hhd ih =>
    intro h
    simp at h
  | case4 c rest hlt ih =>
    intro h
    rw [stripTags.eq_def]
    dsimp only
    rw [if_neg hlt]
    rw [ih (fun hm => h (List.mem_cons_of_mem _ hm))]

/-- Entity decoding succeeds and is the identity on ampersand-free text. -/
theorem decodeHtml_eq_self : ∀ l : List Char, '&' ∉ l → decodeHtml l = some l := by
  intro l
  induction l using decodeHtml.induct with
  | case1 => intro _; simp [decodeHtml]
  | case2 rest hhd e he ih =>
    intro h
    simp at h
  | case3 rest hhd he =>
    intro h
    simp at h
  | case4 rest hhd =>
    intro h
    simp at h
  | case5 c rest hc ih =>
    intro h
    rw [decodeHtml.eq_def]
    dsimp only
    rw [if_neg hc]
    rw [ih (fun hm => h (List.mem_cons_of_mem _ hm))]
    rfl

/-- Prepending a non-break character never creates a new break triple. -/
theorem hasTriple_cons {d : Char} {t : List Char} (hd : isLB d = false) :
    hasTriple (d :: t) = hasTriple t := by
  match t with
  | [] => simp [hasTriple]
  | [t0] => simp [hasTriple]
  | t0 :: t1 :: ts => simp [hasTriple, hd]

/-- A break triple in the tail is a break triple in the list. -/
theorem hasTriple_tail {c : Char} {t : List Char} (h : hasTriple (c :: t) = false) :
    hasTriple t = false := by
  match t with
  | [] => rfl
  | [t0] => rfl
  | t0 :: t1 :: ts =>
    rw [hasTriple] at h
    simp only [Bool.or_eq_false_iff] at h
    exact h.2

/-- Dropping a prefix preserves freedom from break triples. -/
theorem hasTriple_dropWhile {p : Char → Bool} :
    ∀ l : List Char, hasTriple l = false → hasTriple (l.dropWhile p) = false := by
  intro l
  induction l with
  | nil => intro h; exact h
  | cons c rest ih =>
    intro h
    rw [List.dropWhile_cons]
    split
    · exact ih (hasTriple_tail h)
    · exact h

/-- One break character before a non-break character starts no triple. -/
theorem hasTriple_cons_cons {x d : Char} {t : List Char} (hd : isLB d = false)
    (ht : hasTriple t = false) : hasTriple (x :: d :: t) = false := by
  match t with
  | [] => rfl
  | t0 :: ts =>
    rw [hasTriple]
    simp only [hd, Bool.and_false, Bool.false_and, Bool.and_true, Bool.false_or]
    rw [hasTriple_cons hd]
    exact ht

/-- Two break characters before a non-break character start no triple. -/
theorem hasTriple_two_cons {x y d : Char} {t : List Char} (hd : isLB d = false)
    (ht : hasTriple t = false) : hasTriple (x :: y :: d :: t) = false := by
  rw [hasTriple]
  simp only [hd, Bool.and_false, Bool.false_or]
  exact hasTriple_cons_cons hd ht

/-- The head of a `dropWhile` result fails the predicate. -/
theorem dropWhile_head_false {p : Char → Bool} :
    ∀ {l t : List Char} {d : Char}, l.dropWhile p = d :: t → p d = false := by
  intro l
  induction l with
  | nil => intro t d h; cases h
  | cons c rest ih =>
    intro t d h
    rw [List.dropWhile_cons] at h
    split at h
    · exact ih h
    · rename_i hc
      cases h
      simpa using hc

/-- Inverting one step of `takeWhile`. -/
theorem takeWhile_cons_rest {p : Char → Bool} :
    ∀ {l t : List Char} {y : Char}, l.takeWhile p = y :: t →
      ∃ l2 : List Char, l = y :: l2 ∧ p y = true ∧ l2.takeWhile p = t := by
  intro l t y h
  cases l with
  | nil => cases h
  | cons a l2 =>
    rw [List.takeWhile_cons] at h
    split at h
    · rename_i ha
      cases h
      exact ⟨l2, rfl, ha, rfl⟩
    · cases h

/-- The collapse step leaves no run of three or more break characters in its
output. -/
theorem hasTriple_collapseLB : ∀ l : List Char, hasTriple (collapseLB l) = false := by
  intro l
  induction l using collapseLB.induct with
  | case1 => simp [collapseLB, hasTriple]
  | case2 c rest hc ih =>
    rw [collapseLB.eq_def]
    dsimp only
    rw [if_pos hc]
    cases hafter : rest.dropWhile isLB with
    | nil =>
      rw [show collapseLB [] = [] from by simp [collapseLB], List.append_nil]
      split
      · simp [hasTriple]
      · rename_i hlen
        cases htw : rest.takeWhile isLB with
        | nil => rfl
        | cons y ys =>
          rw [htw] at hlen
          cases ys with
          | nil => rfl
          | cons z zs => exfalso; apply hlen; simp
    | cons dafter tafter =>
      have hd : isLB dafter = false := dropWhile_head_false hafter
      have hcd : collapseLB (dafter :: tafter) = dafter :: collapseLB tafter := by
        rw [collapseLB.eq_def]
        dsimp only
        rw [if_neg (by simp [hd])]
      rw [hafter] at ih
      rw [hcd] at ih ⊢
      clear hafter
      have ht : hasTriple (collapseLB tafter) = false := hasTriple_tail ih
      split
      · simpa using hasTriple_two_cons (x := '\n') (y := '\n') hd ht
      · rename_i hlen
        cases htw : rest.takeWhile isLB with
        | nil => simpa using hasTriple_cons_cons (x := c) hd ht
        | cons y ys =>
          rw [htw] at hlen
          cases ys with
          | nil => simpa using hasTriple_two_cons (x := c) (y := y) hd ht
          | cons z zs => exfalso; apply hlen; simp
  | case3 c rest hc ih =>
    rw [collapseLB.eq_def]
    dsimp only
    rw [if_neg hc]
    rw [hasTriple_cons (by simpa using hc)]
    exact ih

/-- The collapse step is the identity on text with no run of three or more
break characters. -/
theorem collapseLB_eq_self : ∀ l : List Char, hasTriple l = false → collapseLB l = l := by
  intro l
  induction l using collapseLB.induct with
  | case1 => intro _; simp [collapseLB]
  | case2 c rest hc ih =>
    intro h
    rw [collapseLB.eq_def]
    dsimp only
    rw [if_pos hc]
    have hrun : ¬ 3 ≤ (c :: rest.takeWhile isLB).length := by
      intro hlen
      cases htw : rest.takeWhile isLB with
      | nil => rw [htw] at hlen; simp at hlen
      | cons y ys =>
        rw [htw] at hlen
        cases ys with
        | nil => simp at hlen
        | cons z zs =>
          obtain ⟨l2, hrest, hy, htw2⟩ := takeWhile_cons_rest htw
          obtain ⟨l3, hl2, hz, -⟩ := takeWhile_cons_rest htw2
          rw [hrest, hl2] at h
          rw [hasTriple] at h
          simp [hc, hy, hz] at h
    rw [if_neg hrun]
    rw [ih (hasTriple_dropWhile rest (hasTriple_tail h))]
    rw [List.cons_append, List.takeWhile_append_dropWhile]
  | case3 c rest hc ih =>
    intro h
    rw [collapseLB.eq_def]
    dsimp only
    rw [if_neg hc]
    rw [ih (hasTriple_tail h)]

set_option maxHeartbeats 2000000 in
/-- C8 counterexample: the pipeline is not idempotent on every input.  On
`"&amp;amp;"` the first pass decodes the leading entity and yields
`"&amp;"`; the second pass decodes again and yields `"&"`.  A decoded entity
can reintroduce an entity (or a tag), which the next pass processes
further. -/
theorem c8_counterexample :
    sanitize_description (sanitize_description "&amp;amp;") ≠
      sanitize_description "&amp;amp;" := by
  have h1 : sanitize_description "&amp;amp;" = "&amp;" := by
    simp [sanitize_description, brReplace, parseBrTag, stripTags, decodeHtml, entityChar,
      collapseLB, isLB, String.toList]
  have h2 : sanitize_description "&amp;" = "&" := by
    simp [sanitize_description, brReplace, parseBrTag, stripTags, decodeHtml, entityChar,
      collapseLB, isLB, String.toList]
  rw [h1, h2]
  decide

set_option maxHeartbeats 2000000 in
/-- C8 (amended): the pipeline is idempotent on every input whose sanitized
output contains no residual `'<'` and no residual `'&'` (a decoded entity can
reintroduce markup or entities, which a second pass would process further);
and the two concrete examples of the claim hold as stated:
`"Hello<br/>World<p>Bold</p>&amp;more"` sanitizes to
`"Hello\nWorldBold&more"` and `"A\n\n\n\nB"` to `"A\n\nB"`. -/
theorem c8_amended :
    (∀ s : String, '<' ∉ (sanitize_description s).toList →
      '&' ∉ (sanitize_description s).toList →
      sanitize_description (sanitize_description s) = sanitize_description s) ∧
    sanitize_description "Hello<br/>World<p>Bold</p>&amp;more" = "Hello\nWorldBold&more" ∧
    sanitize_description "A\n\n\n\nB" = "A\n\nB" := by
  refine ⟨?_, ?_, ?_⟩
  · intro s h1 h2
    obtain ⟨d, hd⟩ : ∃ d : List Char, sanitize_description s = String.mk (collapseLB d) :=
      ⟨_, rfl⟩
    set t := sanitize_description s with hts
    have htl : t.toList = collapseLB d := by rw [hd]; rfl
    have hnt : hasTriple t.toList = false := by
      rw [htl]
      exact hasTriple_collapseLB d
    have hout : sanitize_description t = String.mk (collapseLB t.toList) := by
      simp only [sanitize_description]
      rw [brReplace_eq_self t.toList h1, stripTags_eq_self t.toList h1,
        decodeHtml_eq_self t.toList h2]
    rw [hout, collapseLB_eq_self t.toList hnt, htl]
    exact hd.symm
  · simp [sanitize_description, brReplace, parseBrTag, stripTags, decodeHtml, entityChar,
      collapseLB, isLB, String.toList]
  · simp [sanitize_description, brReplace, parseBrTag, stripTags, decodeHtml, entityChar,
      collapseLB, isLB, String.toList]

/-- C8 witness: the amended idempotence applied to the concrete input
`"A\n\n\n\nB"`, whose output `"A\n\nB"` is free of `'<'` and `'&'`. -/
theorem c8_witness :
    sanitize_description (sanitize_description "A\n\n\n\nB") =
      sanitize_description "A\n\n\n\nB" := by
  have heval : sanitize_description "A\n\n\n\nB" = "A\n\nB" := c8_amended.2.2
  have h1 : '<' ∉ (sanitize_description "A\n\n\n\nB").toList := by
    rw [heval]
    decide
  have h2 : '&' ∉ (sanitize_description "A\n\n\n\nB").toList := by
    rw [heval]
    decide
  exact c8_amended.1 "A\n\n\n\nB" h1 h2
